import Mathlib

/-!
Verification of the alarm-scheduler core of the STM32F407 clock firmware
(`scnscnscn/Clock_On_STM32F407`).

The development shallowly embeds, in Lean:
* the alarm priority queue of `BaseDrive/Timer.c` (`AlarmManager_Init`,
  `GetValidID`, `InsertAlarm`, `Alarm_Add`, `Alarm_Delete`,
  `AlarmTimer_Process`) together with its global state
  (`alarm_queue[MAX_ALARM_NUM]`, `queue_size`, `next_id`);
* the TIM10 time-base constants written by `TIM10_TimeSliceInit`;
* the 10&#8239;ms time-slice branch of the main loop of `User/main.c`
  (accumulator, wall clock, wall-clock-alarm check);
* the UART3 receive-timeout bookkeeping of `User/stm32f4xx_it.c`
  (`SysTick_Handler`, the RXNE branch of `USART3_IRQHandler`).

The C arrays are modelled as total functions `Nat → _`; only indices
below the array bound are ever read or written by the embedded code.
Machine integers are modelled as `Nat`, with the one place where
unsigned wrap-around is reachable (`front_alarm->remain_time--` on a
`uint32_t`) made explicit through `u32dec`.  Callbacks are opaque:
a C function pointer is `Option Nat` (`none` = `NULL`), and processing
functions return the list of invoked callbacks instead of calling them.
-/

namespace ClockVerify

/-- `#define MAX_ALARM_NUM 9` (Timer.h). -/
def MAX_ALARM_NUM : Nat := 9

/-- `#define TIME_SLICE_MS 10` (Timer.h): one tick is 10 ms (100 Hz). -/
def TIME_SLICE_MS : Nat := 10

/-- `AlarmMode` enumeration (Timer.h). -/
inductive AlarmMode where
  | ALARM_ONCE
  | ALARM_REPEAT
deriving DecidableEq, Repr

export AlarmMode (ALARM_ONCE ALARM_REPEAT)

/-- `AlarmState` enumeration (Timer.h). -/
inductive AlarmState where
  | ALARM_INVALID
  | ALARM_VALID
deriving DecidableEq, Repr

export AlarmState (ALARM_INVALID ALARM_VALID)

/-- `AlarmNode_T` (Timer.h).  The callback pointer `cb` is opaque:
`none` is `NULL`, `some k` an arbitrary non-null function pointer. -/
structure AlarmNode_T where
  remain_time : Nat
  duration : Nat
  mode : AlarmMode
  state : AlarmState
  cb : Option Nat
  id : Nat
deriving DecidableEq, Repr

/-- The all-zero node: contents of a slot of the static array
`alarm_queue[]` at boot (static storage is zero-initialized). -/
def zeroNode : AlarmNode_T :=
  { remain_time := 0, duration := 0, mode := ALARM_ONCE,
    state := ALARM_INVALID, cb := none, id := 0 }

/-- Array-cell assignment `q[i] = a`. -/
def setA (q : Nat → AlarmNode_T) (i : Nat) (a : AlarmNode_T) : Nat → AlarmNode_T :=
  fun j => if j = i then a else q j

/-- `x--` on a `uint32_t` holding `n < 2^32`: wraps to `2^32 - 1` when `n = 0`. -/
def u32dec (n : Nat) : Nat := if n = 0 then 4294967295 else n - 1

/-- The module-level mutable state of Timer.c:
`alarm_queue[MAX_ALARM_NUM]`, `queue_size`, `next_id`. -/
structure TimerState where
  alarm_queue : Nat → AlarmNode_T
  queue_size : Nat
  next_id : Nat

/-- `AlarmManager_Init` (Timer.c lines 64-74): mark every slot invalid
(state/id/cb fields), reset `queue_size` and `next_id`. -/
def AlarmManager_Init (s : TimerState) : TimerState :=
  { alarm_queue := fun i =>
      if i < MAX_ALARM_NUM then
        { s.alarm_queue i with state := ALARM_INVALID, id := 0, cb := none }
      else s.alarm_queue i,
    queue_size := 0,
    next_id := 1 }

/-- The state at boot: zero-initialized statics, then `AlarmManager_Init`. -/
def bootState : TimerState :=
  AlarmManager_Init { alarm_queue := fun _ => zeroNode, queue_size := 0, next_id := 1 }

/-- Inner loop of `GetValidID` (Timer.c lines 88-93): is id `i` carried by
some `ALARM_VALID` slot of the whole array? -/
def idUsed (q : Nat → AlarmNode_T) (i : Nat) : Bool :=
  (List.range MAX_ALARM_NUM).any fun j =>
    (q j).state == ALARM_VALID && (q j).id == i

/-- `GetValidID` (Timer.c lines 82-99).  Returns the allocated id (0 if
none is available) together with the new value of the global `next_id`
(the function body executes `next_id++` on its fallback path). -/
def GetValidID (s : TimerState) : Nat × Nat :=
  match (List.range' 1 MAX_ALARM_NUM).find? (fun i => ! idUsed s.alarm_queue i) with
  | some i => (i, s.next_id)
  | none =>
      if s.next_id ≤ MAX_ALARM_NUM then (s.next_id, s.next_id + 1)
      else (0, s.next_id)

/-- The C loop `for (k = i; k < i + n; k++) q[k] = q[k+1];` unrolled by its
iteration count `n` (left shift used by `Alarm_Delete` and by the removal
phase of `AlarmTimer_Process`). -/
def shiftLeftCount (q : Nat → AlarmNode_T) (i : Nat) : Nat → (Nat → AlarmNode_T)
  | 0 => q
  | n + 1 => shiftLeftCount (setA q i (q (i + 1))) (i + 1) n

/-- `for (k = i; k < stop; k++) q[k] = q[k+1];` — runs `stop - i` times. -/
def shiftLeftLoop (q : Nat → AlarmNode_T) (i stop : Nat) : Nat → AlarmNode_T :=
  shiftLeftCount q i (stop - i)

/-- The C loop `for (k = i; k > i - n; k--) q[k] = q[k-1];` unrolled by its
iteration count `n` (right shift used by `InsertAlarm`). -/
def shiftRightCount (q : Nat → AlarmNode_T) (i : Nat) : Nat → (Nat → AlarmNode_T)
  | 0 => q
  | n + 1 => shiftRightCount (setA q i (q (i - 1))) (i - 1) n

/-- `for (k = i; k > pos; k--) q[k] = q[k-1];` — runs `i - pos` times. -/
def shiftRightLoop (q : Nat → AlarmNode_T) (i pos : Nat) : Nat → AlarmNode_T :=
  shiftRightCount q i (i - pos)

/-- Scan loop of `InsertAlarm` (Timer.c lines 113-118), unrolled by its
remaining iteration count: first index `j ≥ i` (within `n` more probes)
with `new_alarm.remain_time < q[j].remain_time`; defaults to the index
one past the last probe (i.e. `queue_size`) when no probe hits. -/
def scanInsertPos (q : Nat → AlarmNode_T) (a : AlarmNode_T) (i : Nat) : Nat → Nat
  | 0 => i
  | n + 1 =>
      if a.remain_time < (q i).remain_time then i
      else scanInsertPos q a (i + 1) n

/-- `InsertAlarm` (Timer.c lines 107-129).  Returns the C `uint8_t`
result (1 success / 0 full) and the new state. -/
def InsertAlarm (s : TimerState) (new_alarm : AlarmNode_T) : Nat × TimerState :=
  if MAX_ALARM_NUM ≤ s.queue_size then (0, s)
  else
    let insert_pos := scanInsertPos s.alarm_queue new_alarm 0 s.queue_size
    let q1 := shiftRightLoop s.alarm_queue s.queue_size insert_pos
    let q2 := setA q1 insert_pos new_alarm
    (1, { alarm_queue := q2, queue_size := s.queue_size + 1, next_id := s.next_id })

/-- `Alarm_Add` (Timer.c lines 140-164).  Returns the allocated id
(0 on failure) and the new state. -/
def Alarm_Add (s : TimerState) (duration_ms : Nat) (mode : AlarmMode)
    (cb : Option Nat) : Nat × TimerState :=
  if cb = none ∨ duration_ms < TIME_SLICE_MS ∨ MAX_ALARM_NUM ≤ s.queue_size then
    (0, s)
  else
    let p := GetValidID s
    let s1 : TimerState := { s with next_id := p.2 }
    if p.1 = 0 then (0, s1)
    else
      let new_alarm : AlarmNode_T :=
        { id := p.1,
          duration := duration_ms / TIME_SLICE_MS,
          remain_time := duration_ms / TIME_SLICE_MS,
          mode := mode,
          state := ALARM_VALID,
          cb := cb }
      let r := InsertAlarm s1 new_alarm
      if r.1 = 0 then (0, r.2) else (p.1, r.2)

/-- Scan loop of `Alarm_Delete` (Timer.c lines 179-186), unrolled by its
remaining iteration count: first index `j ≥ i` (within `n` more probes)
that is `ALARM_VALID` and carries `aid`; `none` plays the role of the
`target_pos == MAX_ALARM_NUM` sentinel. -/
def scanAlarmPos (q : Nat → AlarmNode_T) (aid i : Nat) : Nat → Option Nat
  | 0 => none
  | n + 1 =>
      if (q i).state = ALARM_VALID ∧ (q i).id = aid then some i
      else scanAlarmPos q aid (i + 1) n

/-- `Alarm_Delete` (Timer.c lines 173-200).  Returns the C `uint8_t`
result (1 success / 0 failure) and the new state. -/
def Alarm_Delete (s : TimerState) (alarm_id : Nat) : Nat × TimerState :=
  if alarm_id = 0 ∨ s.queue_size = 0 then (0, s)
  else
    match scanAlarmPos s.alarm_queue alarm_id 0 s.queue_size with
    | none => (0, s)
    | some target_pos =>
        let q1 := shiftLeftLoop s.alarm_queue target_pos (s.queue_size - 1)
        let ns := s.queue_size - 1
        let q2 := setA q1 ns
          { q1 ns with state := ALARM_INVALID, id := 0, cb := none }
        (1, { alarm_queue := q2, queue_size := ns, next_id := s.next_id })

/-- `AlarmTimer_Process` (Timer.c lines 210-249).  Returns the list of
callbacks invoked during the call (empty or a single callback) and the
new state.  The head decrement `front_alarm->remain_time--` is the
unguarded `uint32_t` decrement `u32dec`. -/
def AlarmTimer_Process (s : TimerState) : List Nat × TimerState :=
  if 0 < s.queue_size then
    let front := s.alarm_queue 0
    if front.state = ALARM_VALID then
      let front1 := { front with remain_time := u32dec front.remain_time }
      let q1 := setA s.alarm_queue 0 front1
      if front1.remain_time = 0 then
        let fired : List Nat := match front1.cb with | some c => [c] | none => []
        if front1.mode = ALARM_REPEAT then
          let front2 := { front1 with remain_time := front1.duration }
          let q2 := setA q1 0 front2
          let temp := front2
          let q3 := shiftLeftLoop q2 0 (s.queue_size - 1)
          let s2 : TimerState :=
            { alarm_queue := q3, queue_size := s.queue_size - 1, next_id := s.next_id }
          (fired, (InsertAlarm s2 temp).2)
        else
          let q2 := shiftLeftLoop q1 0 (s.queue_size - 1)
          (fired, { alarm_queue := q2, queue_size := s.queue_size - 1,
                    next_id := s.next_id })
      else ([], { s with alarm_queue := q1 })
    else ([], s)
  else ([], s)

/-- `k` successive calls to `AlarmTimer_Process`, oldest call first;
accumulates the invoked callbacks in invocation order. -/
def processRun (s : TimerState) : Nat → List Nat × TimerState
  | 0 => ([], s)
  | k + 1 =>
      let p := processRun s k
      let q := AlarmTimer_Process p.2
      (p.1 ++ q.1, q.2)

/-- States reachable through the Timer.c public interface. -/
inductive Reachable : TimerState → Prop where
  | init (s : TimerState) : Reachable (AlarmManager_Init s)
  | add (s : TimerState) (d : Nat) (m : AlarmMode) (cb : Option Nat) :
      Reachable s → Reachable (Alarm_Add s d m cb).2
  | delete (s : TimerState) (aid : Nat) :
      Reachable s → Reachable (Alarm_Delete s aid).2
  | tick (s : TimerState) :
      Reachable s → Reachable (AlarmTimer_Process s).2

/-- The live records (indices `0 .. queue_size-1`) are sorted by
non-decreasing `remain_time`. -/
def QueueSorted (s : TimerState) : Prop :=
  ∀ j, j < s.queue_size → ∀ i, i ≤ j →
    (s.alarm_queue i).remain_time ≤ (s.alarm_queue j).remain_time

/-- Every live record is `ALARM_VALID` with `remain_time ≥ 1` and
`duration ≥ 1`. -/
def LiveValid (s : TimerState) : Prop :=
  ∀ i, i < s.queue_size →
    (s.alarm_queue i).state = ALARM_VALID ∧
    1 ≤ (s.alarm_queue i).remain_time ∧
    1 ≤ (s.alarm_queue i).duration

/-- The inductive invariant of the alarm queue. -/
def Inv (s : TimerState) : Prop :=
  s.queue_size ≤ MAX_ALARM_NUM ∧ LiveValid s ∧ QueueSorted s

/-- Every slot at index `queue_size ≤ i < MAX_ALARM_NUM` is cleared:
`ALARM_INVALID`, id 0, `NULL` callback. -/
def TailClean (s : TimerState) : Prop :=
  ∀ i, i < MAX_ALARM_NUM → s.queue_size ≤ i →
    (s.alarm_queue i).state = ALARM_INVALID ∧
    (s.alarm_queue i).id = 0 ∧
    (s.alarm_queue i).cb = none

instance (s : TimerState) : Decidable (TailClean s) := by
  unfold TailClean
  infer_instance

/-! ### TIM10 time-base constants (`TIM10_TimeSliceInit`, Timer.c lines 29-56) -/

/-- TIM10 sits on APB2, clocked at 84 MHz (Timer.c line 25 note). -/
def APB2_TIMER_CLOCK_HZ : Nat := 84000000

/-- `TIM_TimeBaseStruct.TIM_Prescaler = 7999` as written by the body of
`TIM10_TimeSliceInit` (Timer.c line 38). -/
def TIM10_PRESCALER : Nat := 7999

/-- `TIM_TimeBaseStruct.TIM_Period = 10499` as written by the body of
`TIM10_TimeSliceInit` (Timer.c line 40). -/
def TIM10_PERIOD : Nat := 10499

/-- Prescaler 83 stated by the function's own doc comment
("配置为10ms中断：预分频83", Timer.c line 26). -/
def TIM10_PRESCALER_DOC : Nat := 83

/-- Auto-reload 9999 stated by the function's own doc comment
(Timer.c line 26). -/
def TIM10_PERIOD_DOC : Nat := 9999

/-- Update-interrupt rate of an STM32 timer:
`clock / (prescale+1) / (period+1)`. -/
def tickRate (prescale period : Nat) : Nat :=
  APB2_TIMER_CLOCK_HZ / (prescale + 1) / (period + 1)

/-! ### Main-loop time-slice branch (`main.c` lines 742-778) -/

/-- `RealTime` (main.c lines 226-230). -/
structure RealTime where
  hour : Nat
  minute : Nat
  second : Nat
deriving DecidableEq, Repr

/-- Wall-clock advance of one second with cascaded wrap-around
(main.c lines 753-762). -/
def wallClockAdvance (t : RealTime) : RealTime :=
  let s := t.second + 1
  if 60 ≤ s then
    let m := t.minute + 1
    if 60 ≤ m then
      let h := t.hour + 1
      if 24 ≤ h then { hour := 0, minute := 0, second := 0 }
      else { hour := h, minute := 0, second := 0 }
    else { hour := t.hour, minute := m, second := 0 }
  else { hour := t.hour, minute := t.minute, second := s }

/-- The main-loop state touched by the time-slice branch:
`timer_1s_accumulator` (main.c line 731), `g_real_time` (line 231) and
the Timer.c module state. -/
structure MainState where
  timer_1s_accumulator : Nat
  g_real_time : RealTime
  timer : TimerState

/-- One observed pending tick of the main loop (`if (Update_Flag == 1)`
body, main.c lines 742-778): increment the accumulator; when it reaches
76, reset it, advance the wall clock and invoke `Alarm_CheckAndTrigger`
(modelled as the returned `Bool`); finally call `AlarmTimer_Process`
(its invoked callbacks are the returned list). -/
def mainLoopTick (m : MainState) : (Bool × List Nat) × MainState :=
  let acc := m.timer_1s_accumulator + 1
  let pr := AlarmTimer_Process m.timer
  if 76 ≤ acc then
    ((true, pr.1),
      { timer_1s_accumulator := 0, g_real_time := wallClockAdvance m.g_real_time,
        timer := pr.2 })
  else
    ((false, pr.1),
      { timer_1s_accumulator := acc, g_real_time := m.g_real_time, timer := pr.2 })

/-- `k` observed pending ticks of the main loop, oldest first. -/
def mainRun (m : MainState) : Nat → MainState
  | 0 => m
  | k + 1 => (mainLoopTick (mainRun m k)).2

/-- Main-loop state right after the initialization code of `main`
(main.c lines 711-713 and 731: time 00:00:00, accumulator 0) with an
empty alarm queue. -/
def mainInitState : MainState :=
  { timer_1s_accumulator := 0,
    g_real_time := { hour := 0, minute := 0, second := 0 },
    timer := bootState }

/-! ### UART3 receive-timeout bookkeeping (`stm32f4xx_it.c`) -/

/-- `USARTDATA` instance `Uart3`.  The struct declaration (USART.h) is
not part of the tree; the fields are the ones read and written by
USART.c, stm32f4xx_it.c and main.c: receive buffer, received length,
quiet-tick counter, completion flag.  The fixed 300-byte C buffer plus
write index is modelled as the list of bytes stored so far. -/
structure USARTDATA where
  Rxbuf : List Nat
  RXlenth : Nat
  Time : Nat
  ReceiveFinish : Bool
deriving DecidableEq, Repr

/-- UART timeout part of `SysTick_Handler` (stm32f4xx_it.c lines 144-156):
once data has been received, each tick increments `Time`; reaching 10
sets `ReceiveFinish` and resets `Time`. -/
def SysTick_Handler (u : USARTDATA) : USARTDATA :=
  if 0 < u.RXlenth then
    let t := u.Time + 1
    if 10 ≤ t then { u with ReceiveFinish := true, Time := 0 }
    else { u with Time := t }
  else u

/-- RXNE branch of `USART3_IRQHandler` (stm32f4xx_it.c lines 163-173):
store the byte and reset `Time` only while the buffer has room
(`RXlenth < 300`); clear `ReceiveFinish` unconditionally. -/
def USART3_receive_byte (u : USARTDATA) (rec_data : Nat) : USARTDATA :=
  let u1 :=
    if u.RXlenth < 300 then
      { u with Rxbuf := u.Rxbuf ++ [rec_data], RXlenth := u.RXlenth + 1, Time := 0 }
    else u
  { u1 with ReceiveFinish := false }

/-- `k` consecutive ticks with no intervening byte. -/
def quietTicks (u : USARTDATA) : Nat → USARTDATA
  | 0 => u
  | k + 1 => SysTick_Handler (quietTicks u k)

/-! ### Concrete states and helper shapes used by the theorems -/

/-- A queue holding exactly one alarm with id 1 on top of the boot
state: the state produced by registering one alarm into the empty
queue. -/
def singleQ (c N r : Nat) (m : AlarmMode) : TimerState :=
  { alarm_queue := setA bootState.alarm_queue 0
      { remain_time := r, duration := N, mode := m,
        state := ALARM_VALID, cb := some c, id := 1 },
    queue_size := 1, next_id := 1 }

/-- A type-valid (but unreachable) queue state whose valid head has
`remain_time = 0`. -/
def underflowState : TimerState :=
  { alarm_queue := setA (fun _ => zeroNode) 0
      { remain_time := 0, duration := 5, mode := ALARM_ONCE,
        state := ALARM_VALID, cb := some 1, id := 1 },
    queue_size := 1, next_id := 2 }

/-- A receive session whose 300-byte buffer is completely full, with a
nonzero quiet-tick count. -/
def fullBufState : USARTDATA :=
  { Rxbuf := List.replicate 300 0, RXlenth := 300, Time := 5, ReceiveFinish := false }

/-! ### Pointwise characterizations of the embedded C loops -/

theorem setA_apply (q : Nat → AlarmNode_T) (i : Nat) (a : AlarmNode_T) (j : Nat) :
    setA q i a j = if j = i then a else q j := rfl

theorem shiftLeftCount_apply (q : Nat → AlarmNode_T) (i n j : Nat) :
    shiftLeftCount q i n j = if i ≤ j ∧ j < i + n then q (j + 1) else q j := by
  induction n generalizing q i with
  | zero =>
      simp only [shiftLeftCount]
      split
      · omega
      · rfl
  | succ n ih =>
      simp only [shiftLeftCount, ih, setA]
      split_ifs <;> first | rfl | omega | (congr 1; omega)

theorem shiftLeftLoop_apply (q : Nat → AlarmNode_T) (i stop j : Nat) :
    shiftLeftLoop q i stop j = if i ≤ j ∧ j < stop then q (j + 1) else q j := by
  simp only [shiftLeftLoop, shiftLeftCount_apply]
  split_ifs <;> first | rfl | omega

theorem shiftRightCount_apply (q : Nat → AlarmNode_T) (i n j : Nat) (hn : n ≤ i) :
    shiftRightCount q i n j = if i - n < j ∧ j ≤ i then q (j - 1) else q j := by
  induction n generalizing q i with
  | zero =>
      simp only [shiftRightCount]
      split
      · omega
      · rfl
  | succ n ih =>
      simp only [shiftRightCount, ih _ _ (by omega : n ≤ i - 1), setA]
      split_ifs <;> first | rfl | omega | (congr 1; omega)

theorem shiftRightLoop_apply (q : Nat → AlarmNode_T) (i pos j : Nat) (hp : pos ≤ i) :
    shiftRightLoop q i pos j = if pos < j ∧ j ≤ i then q (j - 1) else q j := by
  simp only [shiftRightLoop, shiftRightCount_apply _ _ _ _ (by omega : i - pos ≤ i)]
  split_ifs <;> first | rfl | omega

theorem scanInsertPos_ge (q : Nat → AlarmNode_T) (a : AlarmNode_T) (i n : Nat) :
    i ≤ scanInsertPos q a i n ∧ scanInsertPos q a i n ≤ i + n := by
  induction n generalizing i with
  | zero => simp [scanInsertPos]
  | succ n ih =>
      simp only [scanInsertPos]
      split
      · omega
      · have := ih (i + 1)
        omega

theorem scanInsertPos_before (q : Nat → AlarmNode_T) (a : AlarmNode_T) (i n j : Nat)
    (h1 : i ≤ j) (h2 : j < scanInsertPos q a i n) :
    ¬ a.remain_time < (q j).remain_time := by
  induction n generalizing i with
  | zero => simp [scanInsertPos] at h2; omega
  | succ n ih =>
      simp only [scanInsertPos] at h2
      by_cases hc : a.remain_time < (q i).remain_time
      · simp [hc] at h2; omega
      · simp only [if_neg hc] at h2
        rcases Nat.eq_or_lt_of_le h1 with rfl | hlt
        · exact hc
        · exact ih (i + 1) (by omega) h2

theorem scanInsertPos_hit (q : Nat → AlarmNode_T) (a : AlarmNode_T) (i n : Nat)
    (h : scanInsertPos q a i n < i + n) :
    a.remain_time < (q (scanInsertPos q a i n)).remain_time := by
  induction n generalizing i with
  | zero => simp [scanInsertPos] at h
  | succ n ih =>
      simp only [scanInsertPos] at h ⊢
      by_cases hc : a.remain_time < (q i).remain_time
      · simp [hc]
      · simp only [if_neg hc] at h ⊢
        exact ih (i + 1) (by omega)

theorem scanAlarmPos_some (q : Nat → AlarmNode_T) (aid i n p : Nat)
    (h : scanAlarmPos q aid i n = some p) :
    i ≤ p ∧ p < i + n ∧ (q p).state = ALARM_VALID ∧ (q p).id = aid ∧
      ∀ j, i ≤ j → j < p → ¬((q j).state = ALARM_VALID ∧ (q j).id = aid) := by
  induction n generalizing i with
  | zero => simp [scanAlarmPos] at h
  | succ n ih =>
      simp only [scanAlarmPos] at h
      by_cases hc : (q i).state = ALARM_VALID ∧ (q i).id = aid
      · simp only [if_pos hc, Option.some.injEq] at h
        subst h
        exact ⟨le_refl _, by omega, hc.1, hc.2, fun j h1 h2 => by omega⟩
      · simp only [if_neg hc] at h
        obtain ⟨g1, g2, g3, g4, g5⟩ := ih (i + 1) h
        refine ⟨by omega, by omega, g3, g4, fun j hj1 hj2 => ?_⟩
        rcases Nat.eq_or_lt_of_le hj1 with rfl | hlt
        · exact hc
        · exact g5 j (by omega) hj2

theorem scanAlarmPos_none (q : Nat → AlarmNode_T) (aid i n : Nat)
    (h : scanAlarmPos q aid i n = none) :
    ∀ j, i ≤ j → j < i + n → ¬((q j).state = ALARM_VALID ∧ (q j).id = aid) := by
  induction n generalizing i with
  | zero => intro j h1 h2; omega
  | succ n ih =>
      simp only [scanAlarmPos] at h
      by_cases hc : (q i).state = ALARM_VALID ∧ (q i).id = aid
      · simp [hc] at h
      · simp only [if_neg hc] at h
        intro j hj1 hj2
        rcases Nat.eq_or_lt_of_le hj1 with rfl | hlt
        · exact hc
        · exact ih (i + 1) h j (by omega) (by omega)

/-! ### `InsertAlarm`: characterization and invariant preservation -/

theorem InsertAlarm_apply (s : TimerState) (a : AlarmNode_T)
    (h : s.queue_size < MAX_ALARM_NUM) :
    (InsertAlarm s a).1 = 1 ∧
    (InsertAlarm s a).2.queue_size = s.queue_size + 1 ∧
    (InsertAlarm s a).2.next_id = s.next_id ∧
    ∀ j, (InsertAlarm s a).2.alarm_queue j =
      if j = scanInsertPos s.alarm_queue a 0 s.queue_size then a
      else if j ≤ s.queue_size ∧ scanInsertPos s.alarm_queue a 0 s.queue_size < j then
        s.alarm_queue (j - 1)
      else s.alarm_queue j := by
  have hpos := scanInsertPos_ge s.alarm_queue a 0 s.queue_size
  unfold InsertAlarm
  rw [if_neg (by omega)]
  refine ⟨rfl, rfl, rfl, fun j => ?_⟩
  simp only [setA_apply,
    shiftRightLoop_apply _ _ _ _ (by omega : scanInsertPos s.alarm_queue a 0 s.queue_size ≤ s.queue_size)]
  split_ifs <;> first | rfl | omega

theorem insert_inv (s : TimerState) (a : AlarmNode_T)
    (h9 : s.queue_size < MAX_ALARM_NUM) (hInv : Inv s)
    (hstate : a.state = ALARM_VALID) (hr : 1 ≤ a.remain_time) (hd : 1 ≤ a.duration) :
    Inv (InsertAlarm s a).2 := by
  obtain ⟨hsz, hlv, hsort⟩ := hInv
  obtain ⟨-, hq, -, happ⟩ := InsertAlarm_apply s a h9
  set pos := scanInsertPos s.alarm_queue a 0 s.queue_size with hposdef
  have hpos := scanInsertPos_ge s.alarm_queue a 0 s.queue_size
  have hA : ∀ k, k < pos → (s.alarm_queue k).remain_time ≤ a.remain_time := by
    intro k hk
    exact Nat.le_of_not_lt (scanInsertPos_before s.alarm_queue a 0 s.queue_size k (by omega) hk)
  have hB : ∀ k, pos ≤ k → k < s.queue_size → a.remain_time ≤ (s.alarm_queue k).remain_time := by
    intro k hk1 hk2
    have h1 : a.remain_time < (s.alarm_queue pos).remain_time :=
      scanInsertPos_hit s.alarm_queue a 0 s.queue_size (by omega)
    exact le_trans (le_of_lt h1) (hsort k hk2 pos hk1)
  refine ⟨by simpa [hq] using by omega, ?_, ?_⟩
  · intro i hi
    rw [hq] at hi
    rw [happ]
    split_ifs with h1 h2
    · exact ⟨hstate, hr, hd⟩
    · exact hlv (i - 1) (by omega)
    · exact hlv i (by omega)
  · intro j hj i hij
    rw [hq] at hj
    rw [happ i, happ j]
    rcases Nat.lt_trichotomy i pos with hi | hi | hi <;>
      rcases Nat.lt_trichotomy j pos with hj2 | hj2 | hj2 <;>
        (try omega) <;> split_ifs <;> (try omega)
    · exact hsort j (by omega) i (by omega)
    · exact hA i hi
    · exact le_trans (hA i hi) (hB (j - 1) (by omega) (by omega))
    · exact hB (j - 1) (by omega) (by omega)
    · exact hsort (j - 1) (by omega) (i - 1) (by omega)

/-! ### `Alarm_Delete`: characterization and invariant preservation -/

theorem scanAlarmPos_complete (q : Nat → AlarmNode_T) (aid i n p : Nat)
    (h1 : i ≤ p) (h2 : p < i + n)
    (h3 : (q p).state = ALARM_VALID ∧ (q p).id = aid)
    (h4 : ∀ j, i ≤ j → j < p → ¬((q j).state = ALARM_VALID ∧ (q j).id = aid)) :
    scanAlarmPos q aid i n = some p := by
  induction n generalizing i with
  | zero => omega
  | succ n ih =>
      simp only [scanAlarmPos]
      rcases Nat.eq_or_lt_of_le h1 with rfl | hlt
      · rw [if_pos h3]
      · rw [if_neg (h4 i (le_refl i) hlt)]
        exact ih (i + 1) (by omega) (by omega) fun j hj1 hj2 => h4 j (by omega) hj2

theorem Alarm_Delete_fail (s : TimerState) (aid : Nat)
    (h : aid = 0 ∨ s.queue_size = 0 ∨
      ∀ i, i < s.queue_size →
        ¬((s.alarm_queue i).state = ALARM_VALID ∧ (s.alarm_queue i).id = aid)) :
    Alarm_Delete s aid = (0, s) := by
  by_cases hg : aid = 0 ∨ s.queue_size = 0
  · simp [Alarm_Delete, hg]
  · rcases h with h | h | h
    · exact absurd (Or.inl h) hg
    · exact absurd (Or.inr h) hg
    · have hnone : scanAlarmPos s.alarm_queue aid 0 s.queue_size = none := by
        cases heq : scanAlarmPos s.alarm_queue aid 0 s.queue_size with
        | none => rfl
        | some p =>
            obtain ⟨-, hp, hv, hid, -⟩ := scanAlarmPos_some _ _ _ _ _ heq
            exact absurd ⟨hv, hid⟩ (h p (by omega))
      simp [Alarm_Delete, hg, hnone]

theorem Alarm_Delete_success (s : TimerState) (aid p : Nat)
    (hp : p < s.queue_size) (haid : aid ≠ 0)
    (hmatch : (s.alarm_queue p).state = ALARM_VALID ∧ (s.alarm_queue p).id = aid)
    (hfirst : ∀ j, j < p →
      ¬((s.alarm_queue j).state = ALARM_VALID ∧ (s.alarm_queue j).id = aid)) :
    (Alarm_Delete s aid).1 = 1 ∧
    (Alarm_Delete s aid).2.queue_size = s.queue_size - 1 ∧
    (Alarm_Delete s aid).2.next_id = s.next_id ∧
    ∀ j, (Alarm_Delete s aid).2.alarm_queue j =
      if j < p then s.alarm_queue j
      else if j < s.queue_size - 1 then s.alarm_queue (j + 1)
      else if j = s.queue_size - 1 then
        { s.alarm_queue (s.queue_size - 1) with
            state := ALARM_INVALID, id := 0, cb := none }
      else s.alarm_queue j := by
  have hscan : scanAlarmPos s.alarm_queue aid 0 s.queue_size = some p :=
    scanAlarmPos_complete s.alarm_queue aid 0 s.queue_size p (by omega) (by omega)
      hmatch (fun j hj1 hj2 => hfirst j hj2)
  have hq1 : ∀ j, shiftLeftLoop s.alarm_queue p (s.queue_size - 1) j =
      if p ≤ j ∧ j < s.queue_size - 1 then s.alarm_queue (j + 1) else s.alarm_queue j :=
    fun j => shiftLeftLoop_apply s.alarm_queue p (s.queue_size - 1) j
  unfold Alarm_Delete
  rw [if_neg (by omega), hscan]
  refine ⟨rfl, rfl, rfl, fun j => ?_⟩
  simp only [setA_apply, hq1]
  split_ifs <;> first | rfl | omega

theorem delete_inv (s : TimerState) (aid : Nat) (hInv : Inv s) :
    Inv (Alarm_Delete s aid).2 := by
  obtain ⟨hsz, hlv, hsort⟩ := hInv
  by_cases hg : aid = 0 ∨ s.queue_size = 0
  · rw [Alarm_Delete_fail s aid (by tauto)]
    exact ⟨hsz, hlv, hsort⟩
  · cases hscan : scanAlarmPos s.alarm_queue aid 0 s.queue_size with
    | none =>
        have : Alarm_Delete s aid = (0, s) := by
          unfold Alarm_Delete
          rw [if_neg hg, hscan]
        rw [this]
        exact ⟨hsz, hlv, hsort⟩
    | some p =>
        obtain ⟨-, hp, hv, hid, hbef⟩ := scanAlarmPos_some _ _ _ _ _ hscan
        obtain ⟨-, hq, -, happ⟩ := Alarm_Delete_success s aid p (by omega)
          (by tauto) ⟨hv, hid⟩ (fun j hj => hbef j (by omega) hj)
        refine ⟨by rw [hq]; omega, ?_, ?_⟩
        · intro i hi
          rw [hq] at hi
          rw [happ i]
          split_ifs <;>
            first
              | exact hlv i (by omega)
              | exact hlv (i + 1) (by omega)
        · intro j hj i hij
          rw [hq] at hj
          rw [happ i, happ j]
          split_ifs <;>
            first
              | omega
              | exact hsort j (by omega) i (by omega)
              | exact hsort (j + 1) (by omega) i (by omega)
              | exact hsort (j + 1) (by omega) (i + 1) (by omega)

/-! ### `AlarmTimer_Process`: characterization and invariant preservation -/

theorem process_empty_spec (s : TimerState) (h0 : ¬ 0 < s.queue_size) :
    AlarmTimer_Process s = ([], s) := by
  simp only [AlarmTimer_Process]
  rw [if_neg h0]

theorem process_decrement_spec (s : TimerState) (h0 : 0 < s.queue_size)
    (hv : (s.alarm_queue 0).state = ALARM_VALID)
    (hr : 2 ≤ (s.alarm_queue 0).remain_time) :
    (AlarmTimer_Process s).1 = [] ∧
    (AlarmTimer_Process s).2.queue_size = s.queue_size ∧
    (AlarmTimer_Process s).2.next_id = s.next_id ∧
    ∀ j, (AlarmTimer_Process s).2.alarm_queue j =
      if j = 0 then
        { s.alarm_queue 0 with remain_time := (s.alarm_queue 0).remain_time - 1 }
      else s.alarm_queue j := by
  have hu : u32dec (s.alarm_queue 0).remain_time = (s.alarm_queue 0).remain_time - 1 := by
    simp only [u32dec]
    rw [if_neg (by omega)]
  simp only [AlarmTimer_Process]
  rw [if_pos h0, if_pos hv]
  simp only [hu]
  rw [if_neg (by simpa using by omega)]
  exact ⟨rfl, rfl, rfl, fun j => by simp [setA_apply]⟩

theorem process_fire_once_spec (s : TimerState) (h0 : 0 < s.queue_size)
    (hv : (s.alarm_queue 0).state = ALARM_VALID)
    (hr : (s.alarm_queue 0).remain_time = 1)
    (hm : (s.alarm_queue 0).mode = ALARM_ONCE) :
    (AlarmTimer_Process s).1 =
      (match (s.alarm_queue 0).cb with | some c => [c] | none => []) ∧
    (AlarmTimer_Process s).2.queue_size = s.queue_size - 1 ∧
    (AlarmTimer_Process s).2.next_id = s.next_id ∧
    ∀ j, (AlarmTimer_Process s).2.alarm_queue j =
      if j < s.queue_size - 1 then s.alarm_queue (j + 1)
      else if j = 0 then { s.alarm_queue 0 with remain_time := 0 }
      else s.alarm_queue j := by
  have hu : u32dec (s.alarm_queue 0).remain_time = 0 := by
    simp [u32dec, hr]
  simp only [AlarmTimer_Process]
  rw [if_pos h0, if_pos hv]
  simp only [hu]
  rw [if_pos (by simp), if_neg (by simp [hm])]
  refine ⟨rfl, rfl, rfl, fun j => ?_⟩
  simp only [shiftLeftLoop_apply, setA_apply]
  split_ifs <;> first | rfl | omega | (exfalso; assumption)

/-- Removing the head (left shift by one) of a queue whose tail agrees
with a sorted, live queue yields a sorted, live queue. -/
theorem shifted_inv (s : TimerState) (q' : Nat → AlarmNode_T)
    (hagree : ∀ k, 1 ≤ k → q' k = s.alarm_queue k)
    (hsz : s.queue_size ≤ MAX_ALARM_NUM) (hlv : LiveValid s) (hsort : QueueSorted s) :
    Inv { alarm_queue := shiftLeftLoop q' 0 (s.queue_size - 1),
          queue_size := s.queue_size - 1, next_id := s.next_id } := by
  have e : ∀ k, k < s.queue_size - 1 →
      shiftLeftLoop q' 0 (s.queue_size - 1) k = s.alarm_queue (k + 1) := by
    intro k hk
    rw [shiftLeftLoop_apply, if_pos ⟨Nat.zero_le k, hk⟩]
    exact hagree (k + 1) (by omega)
  refine ⟨le_trans (Nat.sub_le s.queue_size 1) hsz, ?_, ?_⟩
  · intro i hi
    have hi' : i < s.queue_size - 1 := hi
    show (shiftLeftLoop q' 0 (s.queue_size - 1) i).state = ALARM_VALID ∧
      1 ≤ (shiftLeftLoop q' 0 (s.queue_size - 1) i).remain_time ∧
      1 ≤ (shiftLeftLoop q' 0 (s.queue_size - 1) i).duration
    rw [e i hi']
    exact hlv (i + 1) (by omega)
  · intro j hj i hij
    have hj' : j < s.queue_size - 1 := hj
    show (shiftLeftLoop q' 0 (s.queue_size - 1) i).remain_time ≤
      (shiftLeftLoop q' 0 (s.queue_size - 1) j).remain_time
    rw [e i (by omega), e j hj']
    exact hsort (j + 1) (by omega) (i + 1) (by omega)

theorem process_inv (s : TimerState) (hInv : Inv s) :
    Inv (AlarmTimer_Process s).2 := by
  obtain ⟨hsz, hlv, hsort⟩ := hInv
  by_cases h0 : 0 < s.queue_size
  · obtain ⟨hv, hr1, hd1⟩ := hlv 0 h0
    by_cases h2 : 2 ≤ (s.alarm_queue 0).remain_time
    · obtain ⟨-, hq, -, happ⟩ := process_decrement_spec s h0 hv h2
      refine ⟨by rw [hq]; omega, ?_, ?_⟩
      · intro i hi
        rw [hq] at hi
        rw [happ i]
        split_ifs with he
        · subst he
          exact ⟨hv, by simp; omega, by simpa using hd1⟩
        · exact hlv i hi
      · intro j hj i hij
        rw [hq] at hj
        rw [happ i, happ j]
        split_ifs with he1 he2 he2
        · omega
        · subst he1
          simp only
          exact le_trans (by omega) (hsort j hj 0 (by omega))
        · omega
        · exact hsort j hj i hij
    · have hr : (s.alarm_queue 0).remain_time = 1 := by omega
      have hu : u32dec (s.alarm_queue 0).remain_time = 0 := by simp [u32dec, hr]
      by_cases hm : (s.alarm_queue 0).mode = ALARM_REPEAT
      · -- repeating head fires: removal then sorted re-insertion
        simp only [AlarmTimer_Process]
        rw [if_pos h0, if_pos hv]
        simp only [hu]
        rw [if_pos (by simp), if_pos (by simp [hm])]
        apply insert_inv
        · exact (by omega : s.queue_size - 1 < MAX_ALARM_NUM)
        · refine shifted_inv s _ ?_ hsz hlv hsort
          intro k hk
          rw [setA_apply, setA_apply, if_neg (by omega), if_neg (by omega)]
        · exact hv
        · exact hd1
        · exact hd1
      · have hm' : (s.alarm_queue 0).mode = ALARM_ONCE := by
          cases hmm : (s.alarm_queue 0).mode
          · rfl
          · exact absurd hmm hm
        obtain ⟨-, hq, -, happ⟩ := process_fire_once_spec s h0 hv hr hm'
        refine ⟨by rw [hq]; omega, ?_, ?_⟩
        · intro i hi
          rw [hq] at hi
          rw [happ i]
          rw [if_pos (by omega)]
          exact hlv (i + 1) (by omega)
        · intro j hj i hij
          rw [hq] at hj
          rw [happ i, happ j]
          rw [if_pos (by omega), if_pos (by omega)]
          exact hsort (j + 1) (by omega) (i + 1) (by omega)
  · rw [process_empty_spec s h0]
    exact ⟨hsz, hlv, hsort⟩

/-- Every reachable state of the Timer.c module satisfies the queue
invariant. -/
theorem reachable_inv (s : TimerState) (h : Reachable s) : Inv s := by
  induction h with
  | init s =>
      refine ⟨by simp [AlarmManager_Init], ?_, ?_⟩
      · intro i hi
        simp [AlarmManager_Init] at hi
      · intro j hj i hij
        simp [AlarmManager_Init] at hj
  | add s d m cb _ ih =>
      have base : Inv { s with next_id := (GetValidID s).2 } := ⟨ih.1, ih.2⟩
      by_cases h1 : cb = none ∨ d < TIME_SLICE_MS ∨ MAX_ALARM_NUM ≤ s.queue_size
      · simp only [Alarm_Add, if_pos h1]
        exact ih
      · have h2 := h1
        push_neg at h2
        have hins : 1 ≤ d / TIME_SLICE_MS :=
          Nat.div_pos h2.2.1 (by norm_num [TIME_SLICE_MS])
        simp only [Alarm_Add, if_neg h1]
        split_ifs
        · exact base
        · exact insert_inv _ _ h2.2.2 base rfl hins hins
        · exact insert_inv _ _ h2.2.2 base rfl hins hins
  | delete s aid _ ih => exact delete_inv s aid ih
  | tick s _ ih => exact process_inv s ih

/-! ### Runs of the single-alarm queue -/

theorem timerState_eq (x y : TimerState)
    (h1 : ∀ j, x.alarm_queue j = y.alarm_queue j)
    (h2 : x.queue_size = y.queue_size) (h3 : x.next_id = y.next_id) : x = y := by
  cases x
  cases y
  congr 1
  exact funext h1

theorem prodTS_eq (p : List Nat × TimerState) (l : List Nat) (t : TimerState)
    (h1 : p.1 = l) (h2 : p.2 = t) : p = (l, t) := by
  obtain ⟨a, b⟩ := p
  cases h1
  cases h2
  rfl

theorem add_single (c N : Nat) (hN : 1 ≤ N) (m : AlarmMode) :
    Alarm_Add bootState (TIME_SLICE_MS * N) m (some c) = (1, singleQ c N N m) := by
  have hdiv : TIME_SLICE_MS * N / TIME_SLICE_MS = N :=
    Nat.mul_div_cancel_left N (by decide)
  have hg : GetValidID bootState = (1, 1) := by decide
  have hqs : bootState.queue_size = 0 := rfl
  simp only [Alarm_Add]
  rw [if_neg (by
    simp only [TIME_SLICE_MS, MAX_ALARM_NUM, hqs]
    push_neg
    refine ⟨by simp, by omega, by omega⟩)]
  simp only [hg]
  rw [hdiv]
  rfl


theorem process_single_dec (c N r : Nat) (m : AlarmMode) (h2 : 2 ≤ r) :
    AlarmTimer_Process (singleQ c N r m) = ([], singleQ c N (r - 1) m) := by
  obtain ⟨e1, e2, e3, e4⟩ :=
    process_decrement_spec (singleQ c N r m) Nat.one_pos rfl h2
  refine prodTS_eq _ _ _ e1 (timerState_eq _ _ (fun j => ?_) e2 e3)
  rw [e4 j]
  simp only [singleQ, setA_apply]
  split_ifs <;> rfl

theorem process_single_fire_repeat (c N : Nat) :
    AlarmTimer_Process (singleQ c N 1 ALARM_REPEAT) = ([c], singleQ c N N ALARM_REPEAT) := by
  refine prodTS_eq _ _ _ rfl (timerState_eq _ _ (fun j => ?_) rfl rfl)
  cases j with
  | zero => rfl
  | succ jj => rfl

theorem processRun_single (c N : Nat) (m : AlarmMode) (k : Nat) (hk : k + 1 ≤ N) :
    processRun (singleQ c N N m) k = ([], singleQ c N (N - k) m) := by
  induction k with
  | zero => simp [processRun]
  | succ k ih =>
      simp only [processRun, ih (by omega),
        process_single_dec c N (N - k) m (by omega)]
      simp [Nat.sub_sub]


theorem processRun_repeat (c N : Nat) (hN : 1 ≤ N) (k : Nat) :
    processRun (singleQ c N N ALARM_REPEAT) k =
      (List.replicate (k / N) c, singleQ c N (N - k % N) ALARM_REPEAT) := by
  induction k with
  | zero => simp [processRun]
  | succ k ih =>
      have hNpos : 0 < N := hN
      have hdm := Nat.div_add_mod k N
      have hmlt := Nat.mod_lt k hNpos
      by_cases hc : k % N = N - 1
      · have h1 : k + 1 = N * (k / N + 1) := by
          rw [Nat.mul_add, Nat.mul_one]
          omega
        have hdiv : (k + 1) / N = k / N + 1 := by
          rw [h1, Nat.mul_div_cancel_left _ hNpos]
        have hmod : (k + 1) % N = 0 := by
          rw [h1]
          exact Nat.mul_mod_right N _
        have hrem : N - k % N = 1 := by omega
        simp only [processRun, ih, hrem, process_single_fire_repeat c N]
        rw [hdiv, hmod, Nat.sub_zero, List.replicate_succ']
      · have hr2 : 2 ≤ N - k % N := by omega
        have h1 : k + 1 = N * (k / N) + (k % N + 1) := by omega
        have hmod : (k + 1) % N = k % N + 1 := by
          rw [h1, Nat.mul_add_mod]
          exact Nat.mod_eq_of_lt (by omega)
        have hdiv : (k + 1) / N = k / N := by
          rw [h1, Nat.mul_add_div hNpos,
            Nat.div_eq_of_lt (show k % N + 1 < N by omega), Nat.add_zero]
        simp only [processRun, ih,
          process_single_dec c N (N - k % N) ALARM_REPEAT hr2]
        rw [hdiv, hmod]
        simp [Nat.sub_sub]


theorem process_single_fire_once_eq (c N : Nat) :
    AlarmTimer_Process (singleQ c N 1 ALARM_ONCE) =
      ([c], { alarm_queue := setA bootState.alarm_queue 0
                { remain_time := 0, duration := N, mode := ALARM_ONCE,
                  state := ALARM_VALID, cb := some c, id := 1 },
              queue_size := 0, next_id := 1 }) := by
  refine prodTS_eq _ _ _ rfl (timerState_eq _ _ (fun j => ?_) rfl rfl)
  cases j with
  | zero => rfl
  | succ jj => rfl

/-- C2: registering a ONE_SHOT alarm of N ticks (duration_ms = TIME_SLICE_MS * N,
so N = 5 is register(5, ONE_SHOT, cb)) into the empty boot queue succeeds with
queue size 1; the first N-1 tick advances invoke nothing and leave the size at 1,
and the N-th tick advance invokes the callback exactly once, leaving size 0. -/
theorem c2_one_shot_fires_on_Nth_tick (c N : Nat) (hN : 1 ≤ N) :
    (Alarm_Add bootState (TIME_SLICE_MS * N) ALARM_ONCE (some c)).1 ≠ 0 ∧
    (Alarm_Add bootState (TIME_SLICE_MS * N) ALARM_ONCE (some c)).2.queue_size = 1 ∧
    (∀ k, k < N →
      (processRun (Alarm_Add bootState (TIME_SLICE_MS * N) ALARM_ONCE (some c)).2 k).1 = [] ∧
      (processRun (Alarm_Add bootState (TIME_SLICE_MS * N) ALARM_ONCE (some c)).2 k).2.queue_size = 1) ∧
    (processRun (Alarm_Add bootState (TIME_SLICE_MS * N) ALARM_ONCE (some c)).2 N).1 = [c] ∧
    (processRun (Alarm_Add bootState (TIME_SLICE_MS * N) ALARM_ONCE (some c)).2 N).2.queue_size = 0 := by
  simp only [add_single c N hN ALARM_ONCE]
  refine ⟨by norm_num, rfl, ?_, ?_⟩
  · intro k hk
    rw [processRun_single c N ALARM_ONCE k (by omega)]
    exact ⟨rfl, rfl⟩
  · obtain ⟨M, rfl⟩ : ∃ M, N = M + 1 := ⟨N - 1, by omega⟩
    have h1 : M + 1 - M = 1 := by omega
    simp only [processRun, processRun_single c (M + 1) ALARM_ONCE M (by omega), h1,
      process_single_fire_once_eq c (M + 1)]
    exact ⟨List.nil_append [c], trivial⟩

/-- C8: registering a REPEATING alarm of N ticks into the empty boot queue and
performing k tick advances invokes the callback exactly k / N times (hence on
ticks N, 2N, 3N, ...), with queue size 1 and a sorted queue throughout; N = 3,
k = 9 is the spec scenario (3 invocations). -/
theorem c8_repeating_fires_every_Nth_tick (c N : Nat) (hN : 1 ≤ N) :
    ∀ k,
      (processRun (Alarm_Add bootState (TIME_SLICE_MS * N) ALARM_REPEAT (some c)).2 k).1 =
        List.replicate (k / N) c ∧
      (processRun (Alarm_Add bootState (TIME_SLICE_MS * N) ALARM_REPEAT (some c)).2 k).2.queue_size = 1 ∧
      QueueSorted (processRun (Alarm_Add bootState (TIME_SLICE_MS * N) ALARM_REPEAT (some c)).2 k).2 := by
  intro k
  simp only [add_single c N hN ALARM_REPEAT]
  rw [processRun_repeat c N hN k]
  refine ⟨rfl, rfl, ?_⟩
  intro j hj i hij
  have hj1 : j < 1 := hj
  obtain ⟨rfl, rfl⟩ : i = 0 ∧ j = 0 := by omega
  exact le_refl _


/-! ### Claim theorems and witnesses -/

/-- C1: at every point between ticks, after any sequence of Alarm_Add,
Alarm_Delete and AlarmTimer_Process calls starting from AlarmManager_Init,
the remain_time values of the records at indices 0..queue_size-1 of
alarm_queue are in non-decreasing order, so the record at index 0, if
present, has the globally smallest remain_time. -/
theorem c1_queue_sorted (s : TimerState) (h : Reachable s) :
    QueueSorted s ∧
    ∀ j, j < s.queue_size →
      (s.alarm_queue 0).remain_time ≤ (s.alarm_queue j).remain_time := by
  have hInv := reachable_inv s h
  exact ⟨hInv.2.2, fun j hj => hInv.2.2 j hj 0 (Nat.zero_le j)⟩

/-- C1 witness: the sortedness invariant evaluated on the concrete state
reached by two registrations followed by one tick advance. -/
theorem c1_queue_sorted_witness :
    QueueSorted (AlarmTimer_Process
      (Alarm_Add (Alarm_Add bootState 50 ALARM_ONCE (some 1)).2
        30 ALARM_REPEAT (some 2)).2).2 ∧
    ∀ j, j < (AlarmTimer_Process
      (Alarm_Add (Alarm_Add bootState 50 ALARM_ONCE (some 1)).2
        30 ALARM_REPEAT (some 2)).2).2.queue_size →
      ((AlarmTimer_Process
        (Alarm_Add (Alarm_Add bootState 50 ALARM_ONCE (some 1)).2
          30 ALARM_REPEAT (some 2)).2).2.alarm_queue 0).remain_time ≤
      ((AlarmTimer_Process
        (Alarm_Add (Alarm_Add bootState 50 ALARM_ONCE (some 1)).2
          30 ALARM_REPEAT (some 2)).2).2.alarm_queue j).remain_time :=
  c1_queue_sorted _
    (Reachable.tick _
      (Reachable.add _ 30 ALARM_REPEAT (some 2)
        (Reachable.add _ 50 ALARM_ONCE (some 1)
          (Reachable.init { alarm_queue := fun _ => zeroNode, queue_size := 0, next_id := 1 }))))

/-- C2 witness: the spec scenario with duration 5 ticks and callback 7. -/
theorem c2_one_shot_witness :
    (Alarm_Add bootState (TIME_SLICE_MS * 5) ALARM_ONCE (some 7)).1 ≠ 0 ∧
    (Alarm_Add bootState (TIME_SLICE_MS * 5) ALARM_ONCE (some 7)).2.queue_size = 1 ∧
    (∀ k, k < 5 →
      (processRun (Alarm_Add bootState (TIME_SLICE_MS * 5) ALARM_ONCE (some 7)).2 k).1 = [] ∧
      (processRun (Alarm_Add bootState (TIME_SLICE_MS * 5) ALARM_ONCE (some 7)).2 k).2.queue_size = 1) ∧
    (processRun (Alarm_Add bootState (TIME_SLICE_MS * 5) ALARM_ONCE (some 7)).2 5).1 = [7] ∧
    (processRun (Alarm_Add bootState (TIME_SLICE_MS * 5) ALARM_ONCE (some 7)).2 5).2.queue_size = 0 :=
  c2_one_shot_fires_on_Nth_tick 7 5 (by decide)

/-- C3: the tick-source configuration written by TIM10_TimeSliceInit
(prescaler 7999, auto-reload 10499 on the 84 MHz APB2 timer clock) yields
an exact divisor of 1 Hz, not the 100 Hz (10 ms) cadence the spec and the
function's own doc comment (prescaler 83, reload 9999) require; the
documented values do satisfy the divisor equation for 100 Hz exactly. -/
theorem c3_tim10_divisor :
    tickRate TIM10_PRESCALER TIM10_PERIOD = 1 ∧
    1000 / TIME_SLICE_MS = 100 ∧
    tickRate TIM10_PRESCALER TIM10_PERIOD ≠ 1000 / TIME_SLICE_MS ∧
    tickRate TIM10_PRESCALER_DOC TIM10_PERIOD_DOC = 1000 / TIME_SLICE_MS := by
  decide

/-- C5 (amended): AlarmTimer_Process decrements the valid head's remain_time
unconditionally (uint32 wrap-around on zero), but in every state reachable
through the module interface every live record has remain_time ≥ 1, so the
decrement computes remain_time - 1 and never wraps below zero. -/
theorem c5_no_underflow_on_reachable (s : TimerState) (h : Reachable s) :
    (∀ i, i < s.queue_size → 1 ≤ (s.alarm_queue i).remain_time) ∧
    (0 < s.queue_size →
      u32dec (s.alarm_queue 0).remain_time = (s.alarm_queue 0).remain_time - 1) := by
  have hInv := reachable_inv s h
  refine ⟨fun i hi => (hInv.2.1 i hi).2.1, fun h0 => ?_⟩
  have h1 := (hInv.2.1 0 h0).2.1
  simp only [u32dec]
  rw [if_neg (by omega)]

/-- C5 counterexample: on the (type-valid) queue state whose valid head has
remain_time = 0, AlarmTimer_Process is not a no-op on the counter: the
unguarded uint32 decrement wraps the head's remain_time to 2^32 - 1. -/
theorem c5_underflow_counterexample :
    (underflowState.alarm_queue 0).state = ALARM_VALID ∧
    (underflowState.alarm_queue 0).remain_time = 0 ∧
    ((AlarmTimer_Process underflowState).2.alarm_queue 0).remain_time = 4294967295 := by
  decide

/-- C5 witness: the amended claim evaluated on the concrete reachable state
holding one registered alarm. -/
theorem c5_no_underflow_witness :
    (∀ i, i < (Alarm_Add bootState 50 ALARM_ONCE (some 3)).2.queue_size →
      1 ≤ ((Alarm_Add bootState 50 ALARM_ONCE (some 3)).2.alarm_queue i).remain_time) ∧
    (0 < (Alarm_Add bootState 50 ALARM_ONCE (some 3)).2.queue_size →
      u32dec (((Alarm_Add bootState 50 ALARM_ONCE (some 3)).2.alarm_queue 0)).remain_time =
        (((Alarm_Add bootState 50 ALARM_ONCE (some 3)).2.alarm_queue 0)).remain_time - 1) :=
  c5_no_underflow_on_reachable _
    (Reachable.add _ 50 ALARM_ONCE (some 3)
      (Reachable.init { alarm_queue := fun _ => zeroNode, queue_size := 0, next_id := 1 }))

/-- C6: registration fails (returns 0) and leaves the queue, queue_size and
next_id unchanged whenever the callback is NULL, the requested duration is
below one tick (TIME_SLICE_MS), or queue_size equals MAX_ALARM_NUM. -/
theorem c6_add_rejects (s : TimerState) (d : Nat) (m : AlarmMode) (cb : Option Nat)
    (h : cb = none ∨ d < TIME_SLICE_MS ∨ s.queue_size = MAX_ALARM_NUM) :
    Alarm_Add s d m cb = (0, s) := by
  unfold Alarm_Add
  rw [if_pos (by
    rcases h with h | h | h
    · exact Or.inl h
    · exact Or.inr (Or.inl h)
    · exact Or.inr (Or.inr (by omega)))]

/-- C6 witness: registering 5 ms (below the 10 ms tick) fails on the boot
state and leaves it unchanged. -/
theorem c6_add_rejects_witness :
    Alarm_Add bootState 5 ALARM_ONCE (some 1) = (0, bootState) :=
  c6_add_rejects bootState 5 ALARM_ONCE (some 1) (Or.inr (Or.inl (by decide)))


/-- C7: Alarm_Delete of a nonzero id that names exactly one valid record at
index p removes exactly that record (suffix shifted left, vacated trailing
slot cleared to INVALID/id 0/NULL), decrements queue_size, keeps next_id and
returns 1; if the id is 0, the queue is empty, or no scanned record matches,
it returns 0 with the state unchanged. -/
theorem c7_cancel_spec (s : TimerState) (aid : Nat) :
    ((aid = 0 ∨ s.queue_size = 0 ∨
        ∀ i, i < s.queue_size →
          ¬((s.alarm_queue i).state = ALARM_VALID ∧ (s.alarm_queue i).id = aid)) →
      Alarm_Delete s aid = (0, s)) ∧
    (∀ p, p < s.queue_size → aid ≠ 0 →
      (∀ i, i < s.queue_size →
        (((s.alarm_queue i).state = ALARM_VALID ∧ (s.alarm_queue i).id = aid) ↔ i = p)) →
      (Alarm_Delete s aid).1 = 1 ∧
      (Alarm_Delete s aid).2.queue_size = s.queue_size - 1 ∧
      (Alarm_Delete s aid).2.next_id = s.next_id ∧
      (∀ j, j < p → (Alarm_Delete s aid).2.alarm_queue j = s.alarm_queue j) ∧
      (∀ j, p ≤ j → j < s.queue_size - 1 →
        (Alarm_Delete s aid).2.alarm_queue j = s.alarm_queue (j + 1)) ∧
      (Alarm_Delete s aid).2.alarm_queue (s.queue_size - 1) =
        { s.alarm_queue (s.queue_size - 1) with
            state := ALARM_INVALID, id := 0, cb := none } ∧
      (∀ j, s.queue_size ≤ j → (Alarm_Delete s aid).2.alarm_queue j = s.alarm_queue j)) := by
  constructor
  · exact Alarm_Delete_fail s aid
  · intro p hp haid hiff
    obtain ⟨e1, e2, e3, e4⟩ := Alarm_Delete_success s aid p hp haid
      ((hiff p hp).mpr rfl)
      (fun j hj hmatch => by
        have := (hiff j (by omega)).mp hmatch
        omega)
    refine ⟨e1, e2, e3, fun j hj => ?_, fun j hj1 hj2 => ?_, ?_, fun j hj => ?_⟩
    · rw [e4 j, if_pos hj]
    · rw [e4 j, if_neg (by omega), if_pos hj2]
    · rw [e4 (s.queue_size - 1), if_neg (by omega), if_neg (by omega), if_pos rfl]
    · rw [e4 j, if_neg (by omega), if_neg (by omega), if_neg (by omega)]

/-- C7 witness: cancelling id 1 (sitting at index 1 after two registrations)
removes exactly that record; evaluated on the concrete two-alarm state. -/
theorem c7_cancel_witness :
    (Alarm_Delete (Alarm_Add (Alarm_Add bootState 50 ALARM_ONCE (some 1)).2
        30 ALARM_ONCE (some 2)).2 1).1 = 1 ∧
    (Alarm_Delete (Alarm_Add (Alarm_Add bootState 50 ALARM_ONCE (some 1)).2
        30 ALARM_ONCE (some 2)).2 1).2.queue_size =
      (Alarm_Add (Alarm_Add bootState 50 ALARM_ONCE (some 1)).2
        30 ALARM_ONCE (some 2)).2.queue_size - 1 ∧
    (Alarm_Delete (Alarm_Add (Alarm_Add bootState 50 ALARM_ONCE (some 1)).2
        30 ALARM_ONCE (some 2)).2 1).2.next_id =
      (Alarm_Add (Alarm_Add bootState 50 ALARM_ONCE (some 1)).2
        30 ALARM_ONCE (some 2)).2.next_id ∧
    (∀ j, j < 1 →
      (Alarm_Delete (Alarm_Add (Alarm_Add bootState 50 ALARM_ONCE (some 1)).2
          30 ALARM_ONCE (some 2)).2 1).2.alarm_queue j =
        (Alarm_Add (Alarm_Add bootState 50 ALARM_ONCE (some 1)).2
          30 ALARM_ONCE (some 2)).2.alarm_queue j) ∧
    (∀ j, 1 ≤ j →
      j < (Alarm_Add (Alarm_Add bootState 50 ALARM_ONCE (some 1)).2
        30 ALARM_ONCE (some 2)).2.queue_size - 1 →
      (Alarm_Delete (Alarm_Add (Alarm_Add bootState 50 ALARM_ONCE (some 1)).2
          30 ALARM_ONCE (some 2)).2 1).2.alarm_queue j =
        (Alarm_Add (Alarm_Add bootState 50 ALARM_ONCE (some 1)).2
          30 ALARM_ONCE (some 2)).2.alarm_queue (j + 1)) ∧
    (Alarm_Delete (Alarm_Add (Alarm_Add bootState 50 ALARM_ONCE (some 1)).2
        30 ALARM_ONCE (some 2)).2 1).2.alarm_queue
      ((Alarm_Add (Alarm_Add bootState 50 ALARM_ONCE (some 1)).2
        30 ALARM_ONCE (some 2)).2.queue_size - 1) =
      { (Alarm_Add (Alarm_Add bootState 50 ALARM_ONCE (some 1)).2
          30 ALARM_ONCE (some 2)).2.alarm_queue
          ((Alarm_Add (Alarm_Add bootState 50 ALARM_ONCE (some 1)).2
            30 ALARM_ONCE (some 2)).2.queue_size - 1) with
          state := ALARM_INVALID, id := 0, cb := none } ∧
    (∀ j, (Alarm_Add (Alarm_Add bootState 50 ALARM_ONCE (some 1)).2
        30 ALARM_ONCE (some 2)).2.queue_size ≤ j →
      (Alarm_Delete (Alarm_Add (Alarm_Add bootState 50 ALARM_ONCE (some 1)).2
          30 ALARM_ONCE (some 2)).2 1).2.alarm_queue j =
        (Alarm_Add (Alarm_Add bootState 50 ALARM_ONCE (some 1)).2
          30 ALARM_ONCE (some 2)).2.alarm_queue j) :=
  (c7_cancel_spec _ 1).2 1 (by decide) (by decide) (by decide)

/-- C8 witness: the spec scenario, duration 3 ticks, 9 tick advances,
callback 7: invoked exactly 3 times with the queue size 1 and sorted. -/
theorem c8_repeating_witness :
    (processRun (Alarm_Add bootState (TIME_SLICE_MS * 3) ALARM_REPEAT (some 7)).2 9).1 =
      List.replicate (9 / 3) 7 ∧
    (processRun (Alarm_Add bootState (TIME_SLICE_MS * 3) ALARM_REPEAT (some 7)).2 9).2.queue_size = 1 ∧
    QueueSorted (processRun (Alarm_Add bootState (TIME_SLICE_MS * 3) ALARM_REPEAT (some 7)).2 9).2 :=
  c8_repeating_fires_every_Nth_tick 7 3 (by decide) 9


/-- C10: the predicate "every slot at index ≥ queue_size is INVALID with id 0
and NULL callback" (TailClean) is preserved by Alarm_Delete, which clears the
vacated trailing slot; it is not preserved by AlarmTimer_Process: when a
one-shot head fires, the left-shift removal leaves the slot at the new
queue_size holding a still-VALID copy carrying the old id and callback of the
previously last record. -/
theorem c10_tail_clean_delete_not_process :
    (∀ s aid, s.queue_size ≤ MAX_ALARM_NUM → TailClean s →
      TailClean (Alarm_Delete s aid).2) ∧
    (∀ s : TimerState, 0 < s.queue_size → s.queue_size ≤ MAX_ALARM_NUM →
      (s.alarm_queue 0).state = ALARM_VALID →
      (s.alarm_queue 0).remain_time = 1 →
      (s.alarm_queue 0).mode = ALARM_ONCE →
      (s.alarm_queue (s.queue_size - 1)).state = ALARM_VALID →
      (AlarmTimer_Process s).2.queue_size = s.queue_size - 1 ∧
      ((AlarmTimer_Process s).2.alarm_queue (s.queue_size - 1)).state = ALARM_VALID ∧
      ((AlarmTimer_Process s).2.alarm_queue (s.queue_size - 1)).id =
        (s.alarm_queue (s.queue_size - 1)).id ∧
      ((AlarmTimer_Process s).2.alarm_queue (s.queue_size - 1)).cb =
        (s.alarm_queue (s.queue_size - 1)).cb ∧
      ¬ TailClean (AlarmTimer_Process s).2) := by
  constructor
  · intro s aid hsz hclean
    by_cases hg : aid = 0 ∨ s.queue_size = 0
    · rw [Alarm_Delete_fail s aid (by tauto)]
      exact hclean
    · cases hscan : scanAlarmPos s.alarm_queue aid 0 s.queue_size with
      | none =>
          have : Alarm_Delete s aid = (0, s) := by
            unfold Alarm_Delete
            rw [if_neg hg, hscan]
          rw [this]
          exact hclean
      | some p =>
          obtain ⟨-, hp, hv, hid, hbef⟩ := scanAlarmPos_some _ _ _ _ _ hscan
          obtain ⟨-, e2, -, e4⟩ := Alarm_Delete_success s aid p (by omega)
            (by tauto) ⟨hv, hid⟩ (fun j hj => hbef j (by omega) hj)
          intro i hi9 hge
          rw [e2] at hge
          rw [e4 i, if_neg (by omega), if_neg (by omega)]
          split_ifs with he
          · exact ⟨rfl, rfl, rfl⟩
          · exact hclean i hi9 (by omega)
  · intro s h0 hsz hv hr hm hlast
    obtain ⟨-, f2, -, f4⟩ := process_fire_once_spec s h0 hv hr hm
    have hslot : (AlarmTimer_Process s).2.alarm_queue (s.queue_size - 1) =
        (if s.queue_size = 1 then { s.alarm_queue 0 with remain_time := 0 }
         else s.alarm_queue (s.queue_size - 1)) := by
      rw [f4 (s.queue_size - 1)]
      by_cases h1 : s.queue_size = 1
      · rw [if_neg (by omega), if_pos (by omega), if_pos h1]
      · rw [if_neg (by omega), if_neg (by omega), if_neg h1]
    have hstate : ((AlarmTimer_Process s).2.alarm_queue (s.queue_size - 1)).state =
        ALARM_VALID := by
      rw [hslot]
      split_ifs
      · exact hv
      · exact hlast
    have hid : ((AlarmTimer_Process s).2.alarm_queue (s.queue_size - 1)).id =
        (s.alarm_queue (s.queue_size - 1)).id := by
      rw [hslot]
      split_ifs with h1
      · rw [h1]
      · rfl
    have hcb : ((AlarmTimer_Process s).2.alarm_queue (s.queue_size - 1)).cb =
        (s.alarm_queue (s.queue_size - 1)).cb := by
      rw [hslot]
      split_ifs with h1
      · rw [h1]
      · rfl
    refine ⟨f2, hstate, hid, hcb, fun hTC => ?_⟩
    have hbad := hTC (s.queue_size - 1) (by omega) (by rw [f2])
    rw [hbad.1] at hstate
    exact absurd hstate (by decide)

/-- C10 witness: Alarm_Delete keeps the tail clean on a concrete one-alarm
state, while AlarmTimer_Process on a firing one-shot singleton leaves a
VALID stale copy above the new queue_size. -/
theorem c10_tail_clean_witness :
    TailClean (Alarm_Delete (Alarm_Add bootState 50 ALARM_ONCE (some 1)).2 1).2 ∧
    ¬ TailClean (AlarmTimer_Process (singleQ 7 5 1 ALARM_ONCE)).2 :=
  ⟨c10_tail_clean_delete_not_process.1 _ 1 (by decide) (by decide),
   (c10_tail_clean_delete_not_process.2 (singleQ 7 5 1 ALARM_ONCE) (by decide) (by decide)
      (by decide) (by decide) (by decide) (by decide)).2.2.2.2⟩


set_option maxRecDepth 40000 in
/-- C4 counterexample: starting from the post-initialization main-loop state,
the wall clock's seconds field already advances on the 76th observed tick —
before the accumulator could ever reach the 100 ticks that make up one second
(TIME_SLICE_MS = 10 ms), because the code's threshold is 76, not 100. -/
theorem c4_seconds_advance_at_76 :
    (mainRun mainInitState 75).g_real_time.second = 0 ∧
    (mainRun mainInitState 76).g_real_time.second = 1 ∧
    (mainRun mainInitState 76).timer_1s_accumulator = 0 ∧
    76 ≠ 1000 / TIME_SLICE_MS := by
  decide

/-- C4 (amended): on every observed pending tick the accumulator increments
by one; exactly when it reaches 76 (not 100) it resets to zero, the wall
clock advances one second with seconds wrapping at 60 into minutes, minutes
at 60 into hours and hours at 24, and the wall-clock-alarm check runs; the
alarm-queue advance runs on every observed tick. -/
theorem c4_time_slice_spec (m : MainState) :
    ((mainLoopTick m).1.1 = true ↔ 76 ≤ m.timer_1s_accumulator + 1) ∧
    (mainLoopTick m).1.2 = (AlarmTimer_Process m.timer).1 ∧
    (mainLoopTick m).2.timer = (AlarmTimer_Process m.timer).2 ∧
    (m.timer_1s_accumulator + 1 < 76 →
      (mainLoopTick m).2.timer_1s_accumulator = m.timer_1s_accumulator + 1 ∧
      (mainLoopTick m).2.g_real_time = m.g_real_time) ∧
    (76 ≤ m.timer_1s_accumulator + 1 →
      (mainLoopTick m).2.timer_1s_accumulator = 0 ∧
      (mainLoopTick m).2.g_real_time = wallClockAdvance m.g_real_time) ∧
    (∀ t : RealTime, t.second + 1 < 60 →
      wallClockAdvance t = { hour := t.hour, minute := t.minute, second := t.second + 1 }) ∧
    (∀ t : RealTime, 60 ≤ t.second + 1 → t.minute + 1 < 60 →
      wallClockAdvance t = { hour := t.hour, minute := t.minute + 1, second := 0 }) ∧
    (∀ t : RealTime, 60 ≤ t.second + 1 → 60 ≤ t.minute + 1 → t.hour + 1 < 24 →
      wallClockAdvance t = { hour := t.hour + 1, minute := 0, second := 0 }) ∧
    (∀ t : RealTime, 60 ≤ t.second + 1 → 60 ≤ t.minute + 1 → 24 ≤ t.hour + 1 →
      wallClockAdvance t = { hour := 0, minute := 0, second := 0 }) := by
  refine ⟨?_, ?_, ?_, ?_, ?_, ?_, ?_, ?_, ?_⟩
  · by_cases hc : 76 ≤ m.timer_1s_accumulator + 1
    · simp only [mainLoopTick]
      rw [if_pos hc]
      simp [hc]
    · simp only [mainLoopTick]
      rw [if_neg hc]
      simp [hc]
  · by_cases hc : 76 ≤ m.timer_1s_accumulator + 1
    · simp only [mainLoopTick]
      rw [if_pos hc]
    · simp only [mainLoopTick]
      rw [if_neg hc]
  · by_cases hc : 76 ≤ m.timer_1s_accumulator + 1
    · simp only [mainLoopTick]
      rw [if_pos hc]
    · simp only [mainLoopTick]
      rw [if_neg hc]
  · intro hc
    simp only [mainLoopTick]
    rw [if_neg (by omega)]
    exact ⟨rfl, rfl⟩
  · intro hc
    simp only [mainLoopTick]
    rw [if_pos hc]
    exact ⟨rfl, rfl⟩
  · intro t ht
    simp only [wallClockAdvance]
    rw [if_neg (by omega)]
  · intro t ht1 ht2
    simp only [wallClockAdvance]
    rw [if_pos (by omega), if_neg (by omega)]
  · intro t ht1 ht2 ht3
    simp only [wallClockAdvance]
    rw [if_pos (by omega), if_pos (by omega), if_neg (by omega)]
  · intro t ht1 ht2 ht3
    simp only [wallClockAdvance]
    rw [if_pos (by omega), if_pos (by omega), if_pos (by omega)]

/-- C4 witness: the amended per-tick behavior evaluated at the
post-initialization state and at the wrap boundary times 00:00:59 and
23:59:59. -/
theorem c4_time_slice_witness :
    (mainLoopTick mainInitState).2.timer_1s_accumulator = 0 + 1 ∧
    (mainLoopTick mainInitState).2.g_real_time = mainInitState.g_real_time ∧
    wallClockAdvance { hour := 0, minute := 0, second := 59 } =
      { hour := 0, minute := 1, second := 0 } ∧
    wallClockAdvance { hour := 23, minute := 59, second := 59 } =
      { hour := 0, minute := 0, second := 0 } :=
  ⟨((c4_time_slice_spec mainInitState).2.2.2.1 (by decide)).1,
   ((c4_time_slice_spec mainInitState).2.2.2.1 (by decide)).2,
   (c4_time_slice_spec mainInitState).2.2.2.2.2.2.1
     { hour := 0, minute := 0, second := 59 } (by decide) (by decide),
   (c4_time_slice_spec mainInitState).2.2.2.2.2.2.2.2
     { hour := 23, minute := 59, second := 59 } (by decide) (by decide) (by decide)⟩

/-- C9 counterexample: a byte arriving while the 300-byte buffer is full is
dropped and does not reset the quiet-tick counter (Time stays 5), although
it does clear the completion flag; so "every newly arrived byte resets the
quiet-tick counter to zero" fails as stated. -/
theorem c9_full_buffer_counterexample :
    1 ≤ fullBufState.RXlenth ∧
    fullBufState.Time = 5 ∧
    (USART3_receive_byte fullBufState 7).Time = 5 ∧
    (USART3_receive_byte fullBufState 7).Time ≠ 0 := by
  decide

/-- C9 (amended): with at least one byte buffered and the quiet counter at
zero, the completion flag is still false after 9 quiet ticks and becomes
true (with the counter reset) on the 10th; every newly arrived byte clears
the completion flag, and resets the quiet counter to zero whenever the
buffer is not full (RXlenth < 300). -/
theorem c9_receive_timeout_spec (u : USARTDATA) (hlen : 1 ≤ u.RXlenth)
    (ht : u.Time = 0) (hf : u.ReceiveFinish = false) :
    (∀ k, k ≤ 9 → (quietTicks u k).ReceiveFinish = false ∧ (quietTicks u k).Time = k) ∧
    (quietTicks u 10).ReceiveFinish = true ∧
    (quietTicks u 10).Time = 0 ∧
    (∀ v : USARTDATA, ∀ b, (USART3_receive_byte v b).ReceiveFinish = false) ∧
    (∀ v : USARTDATA, ∀ b, v.RXlenth < 300 → (USART3_receive_byte v b).Time = 0) := by
  obtain ⟨buf, len, tm, fin⟩ := u
  simp only at hlen ht hf
  subst ht
  subst hf
  have key : ∀ k, k ≤ 9 →
      quietTicks { Rxbuf := buf, RXlenth := len, Time := 0, ReceiveFinish := false } k =
        { Rxbuf := buf, RXlenth := len, Time := k, ReceiveFinish := false } := by
    intro k
    induction k with
    | zero => intro _; rfl
    | succ k ih =>
        intro hk
        simp only [quietTicks, ih (by omega), SysTick_Handler]
        rw [if_pos (by simpa using hlen), if_neg (by simpa using by omega)]
  refine ⟨fun k hk => by rw [key k hk]; exact ⟨rfl, rfl⟩, ?_, ?_, ?_, ?_⟩
  · show (SysTick_Handler (quietTicks _ 9)).ReceiveFinish = true
    rw [key 9 (by omega)]
    simp only [SysTick_Handler]
    rw [if_pos (by simpa using hlen), if_pos (by simp)]
  · show (SysTick_Handler (quietTicks _ 9)).Time = 0
    rw [key 9 (by omega)]
    simp only [SysTick_Handler]
    rw [if_pos (by simpa using hlen), if_pos (by simp)]
  · intro v b
    rfl
  · intro v b hv
    simp only [USART3_receive_byte]
    rw [if_pos hv]

/-- C9 witness: the amended timeout behavior evaluated on the session that
has buffered one byte with the quiet counter at zero. -/
theorem c9_receive_timeout_witness :
    (∀ k, k ≤ 9 →
      (quietTicks { Rxbuf := [65], RXlenth := 1, Time := 0, ReceiveFinish := false } k).ReceiveFinish = false ∧
      (quietTicks { Rxbuf := [65], RXlenth := 1, Time := 0, ReceiveFinish := false } k).Time = k) ∧
    (quietTicks { Rxbuf := [65], RXlenth := 1, Time := 0, ReceiveFinish := false } 10).ReceiveFinish = true ∧
    (quietTicks { Rxbuf := [65], RXlenth := 1, Time := 0, ReceiveFinish := false } 10).Time = 0 ∧
    (∀ v : USARTDATA, ∀ b, (USART3_receive_byte v b).ReceiveFinish = false) ∧
    (∀ v : USARTDATA, ∀ b, v.RXlenth < 300 → (USART3_receive_byte v b).Time = 0) :=
  c9_receive_timeout_spec
    { Rxbuf := [65], RXlenth := 1, Time := 0, ReceiveFinish := false }
    (by decide) rfl rfl

end ClockVerify
